import Mathlib

/-!
Shallow embedding of fluent-bit `src/flb_input.c` (input-side core:
instance registry, collector registry, dynamic-tag buffer pool,
property store) and proofs about the claims of the specification.

C strings are modelled as `List Nat` of their bytes (the terminating
NUL is represented by the end of the list; interior bytes may be any
value, and the string-comparison helpers stop at a zero byte exactly
as the C library functions do).  Machine integers are modelled as
`Int`/`Nat`.  Heap mutation through pointers is modelled by explicit
state passing: a C function that mutates an instance returns the
updated instance value.
-/

/-- A byte of a C string / buffer. -/
abbrev Byte := Nat

/-- ASCII lower-casing of one byte, as `tolower` does for ASCII input. -/
def asciiLower (b : Byte) : Byte :=
  if 65 ≤ b ∧ b ≤ 90 then b + 32 else b

/-- Bytes of a Lean string literal, used to write C string constants. -/
def bytes (s : String) : List Byte :=
  s.data.map Char.toNat

/-- Embedding of `strncasecmp(a, b, n) == 0`.  The comparison stops after
`n` bytes, or at the NUL terminator of either string (the end of the
list stands for the NUL byte). -/
def strncasecmpEq : List Byte → List Byte → Nat → Bool
  | _, _, 0 => true
  | [], [], _ + 1 => true
  | [], b :: _, _ + 1 => b == 0
  | a :: _, [], _ + 1 => a == 0
  | a :: as, b :: bs, n + 1 =>
      (asciiLower a == asciiLower b) && (a == 0 || strncasecmpEq as bs n)

/-- Embedding of `strncmp(a, b, n) == 0` (case sensitive). -/
def strncmpEq : List Byte → List Byte → Nat → Bool
  | _, _, 0 => true
  | [], [], _ + 1 => true
  | [], b :: _, _ + 1 => b == 0
  | a :: _, [], _ + 1 => a == 0
  | a :: as, b :: bs, n + 1 =>
      (a == b) && (a == 0 || strncmpEq as bs n)

/-- Embedding of `msgpack_sbuffer`: a growable byte buffer.  `data` is the
region of written bytes and `size` the number of written bytes, exactly
the two fields the C code reads. -/
structure MsgpackSbuffer where
  size : Nat
  data : List Byte
deriving DecidableEq, Repr

/-- Embedding of `msgpack_sbuffer_init`: an empty buffer. -/
def msgpack_sbuffer_init : MsgpackSbuffer := { size := 0, data := [] }

/-- Embedding of `msgpack_sbuffer_write`: append `buf` and grow `size`. -/
def msgpack_sbuffer_write (s : MsgpackSbuffer) (buf : List Byte) : MsgpackSbuffer :=
  { size := s.size + buf.length, data := s.data ++ buf }

/-- Collector kind bit `FLB_COLLECT_TIME` (value modelled; the header
defining the constant is not part of the sources, only the bitmask
usage in `flb_input.c` is). -/
def FLB_COLLECT_TIME : Nat := 1

/-- Collector kind bit `FLB_COLLECT_FD_EVENT`. -/
def FLB_COLLECT_FD_EVENT : Nat := 2

/-- Collector kind bit `FLB_COLLECT_FD_SERVER`. -/
def FLB_COLLECT_FD_SERVER : Nat := 4

/-- Plugin flag `FLB_INPUT_NET` (modelled as a distinct bit). -/
def FLB_INPUT_NET : Nat := 4

/-- Plugin flag `FLB_INPUT_THREAD` (modelled as a distinct bit). -/
def FLB_INPUT_THREAD : Nat := 8

/-- Plugin flag `FLB_INPUT_DYN_TAG` (modelled as a distinct bit). -/
def FLB_INPUT_DYN_TAG : Nat := 16

/-- Instance buffering status `FLB_INPUT_RUNNING`. -/
def FLB_INPUT_RUNNING : Nat := 1

/-- Instance buffering status `FLB_INPUT_PAUSED`. -/
def FLB_INPUT_PAUSED : Nat := 2

/-- Reactor event mask `MK_EVENT_EMPTY`. -/
def MK_EVENT_EMPTY : Nat := 0

/-- Reactor event status `MK_EVENT_NONE`. -/
def MK_EVENT_NONE : Nat := 0

/-- Reactor event mask `MK_EVENT_READ`. -/
def MK_EVENT_READ : Nat := 1

/-- Reactor event mask `MK_EVENT_IDLE`. -/
def MK_EVENT_IDLE : Nat := 16

/-- Reactor event type tag `FLB_ENGINE_EV_CORE`. -/
def FLB_ENGINE_EV_CORE : Nat := 1

/-- Embedding of `struct mk_event` (the fields `flb_input.c` touches). -/
structure MkEvent where
  fd : Int
  mask : Nat
  status : Nat
deriving DecidableEq, Repr

/-- Embedding of `MK_EVENT_NEW`: a zeroed event slot. -/
def mkEventNew : MkEvent := { fd := -1, mask := MK_EVENT_EMPTY, status := MK_EVENT_NONE }

/-- Modelled from the spec: the reactor (mk_core event loop, not part of
the sources).  `createTimer` hands out a fresh descriptor and registers
it; `subscribe`/`unsubscribe` maintain the descriptor-to-mask table. -/
structure Reactor where
  nextFd : Nat
  subs : List (Int × Nat)
deriving DecidableEq, Repr

/-- Modelled from the spec: `subscribe(descriptor, mask)` replaces any
subscription of the same descriptor. -/
def reactor_subscribe (evl : Reactor) (fd : Int) (mask : Nat) : Reactor :=
  { evl with subs := (evl.subs.filter (fun s => !(s.1 == fd))) ++ [(fd, mask)] }

/-- Modelled from the spec: `unsubscribe(descriptor)`. -/
def reactor_unsubscribe (evl : Reactor) (fd : Int) : Reactor :=
  { evl with subs := evl.subs.filter (fun s => !(s.1 == fd)) }

/-- Modelled from the spec: `mk_event_timeout_create` creates a timeout
source for the given interval, returning a fresh descriptor and
registering it for read events.  It never fails in the model (resource
exhaustion is not modelled); the C callers keep a `fd == -1` branch
which is mirrored as dead code. -/
def mk_event_timeout_create (evl : Reactor) (seconds nanoseconds : Int)
    (ev : MkEvent) : Int × MkEvent × Reactor :=
  let _ := seconds
  let _ := nanoseconds
  let fd : Int := (evl.nextFd : Int)
  (fd, { ev with fd := fd, mask := MK_EVENT_READ },
   { nextFd := evl.nextFd + 1, subs := evl.subs ++ [(fd, MK_EVENT_READ)] })

/-- Modelled from the spec: `mk_event_add` subscribes `fd` with `mask`,
filling the caller-supplied event slot.  Returns 0 (success); the C
callers keep failure branches which are mirrored as dead code. -/
def mk_event_add (evl : Reactor) (fd : Int) (etype : Nat) (mask : Nat)
    (ev : MkEvent) : Int × MkEvent × Reactor :=
  let _ := etype
  (0, { ev with fd := fd, mask := mask }, reactor_subscribe evl fd mask)

/-- Modelled from the spec: `mk_event_del` drops the subscription of the
descriptor recorded in the event slot. -/
def mk_event_del (evl : Reactor) (ev : MkEvent) : Reactor :=
  reactor_unsubscribe evl ev.fd

/-- Embedding of `struct flb_input_collector`.  The `instance` back
pointer of the C struct is not representable in a value model and is
omitted; `cb_collect` is an opaque callback token. -/
structure FlbInputCollector where
  id : Int
  ctype : Nat
  cb_collect : Nat
  fd_event : Int
  fd_timer : Int
  seconds : Int
  nanoseconds : Int
  running : Bool
  event : MkEvent
deriving DecidableEq, Repr

/-- Embedding of `struct flb_input_plugin` (the fields `flb_input.c`
reads).  `addr` stands for the address of the plugin descriptor: the C
code compares plugin pointers (`entry->p == p`), which the model renders
as equality of `addr`. -/
structure FlbInputPlugin where
  addr : Nat
  name : List Byte
  flags : Nat
deriving DecidableEq, Repr

/-- Embedding of `struct flb_config_prop`: one property store entry.
`val` is `none` when the C code stores a NULL value pointer. -/
structure FlbConfigProp where
  key : List Byte
  val : Option (List Byte)
deriving DecidableEq, Repr

/-- Embedding of the `struct flb_net_host` fields touched here. -/
structure FlbNetHost where
  name : Option (List Byte)
  address : Option (List Byte)
  uri : Option (List Byte)
  listen : Option (List Byte)
  port : Int
  ipv6 : Bool
deriving DecidableEq, Repr

/-- Embedding of `struct flb_input_dyntag`: one tag-addressed buffer. -/
structure FlbInputDyntag where
  busy : Bool
  lock : Bool
  tag : List Byte
  tag_len : Nat
  mp_sbuf : MsgpackSbuffer
deriving DecidableEq, Repr

/-- Embedding of `struct flb_input_instance` (the fields `flb_input.c`
touches).  `context` and `data` are opaque pointer tokens; `routes`,
`tasks` and `threads` are lists of opaque tokens (their elements are
managed by external collaborators). -/
structure FlbInputInstance where
  p : FlbInputPlugin
  id : Nat
  name : List Byte
  flags : Nat
  tag : Option (List Byte)
  tag_len : Nat
  context : Nat
  data : Nat
  threaded : Bool
  host : FlbNetHost
  mp_records : Nat
  mp_sbuf : MsgpackSbuffer
  mp_total_buf_size : Nat
  mp_buf_limit : Nat
  mp_buf_status : Nat
  routes : List Nat
  tasks : List Nat
  threads : List Nat
  properties : List FlbConfigProp
  collectors : List FlbInputCollector
  dyntags : List FlbInputDyntag
deriving DecidableEq, Repr

/-- Embedding of `struct flb_config` (the fields `flb_input.c` touches).
The C code links each collector into both the per-instance list and
this global list (the same heap node in two lists); the model stores a
copy in each list, and the collector operations below read and update
the per-instance list exactly as the C functions do. -/
structure FlbConfig where
  in_plugins : List FlbInputPlugin
  inputs : List FlbInputInstance
  collectors : List FlbInputCollector
  evl : Reactor
deriving DecidableEq, Repr

/-- Modelled from the spec: the external helpers `flb_input.c` calls
that live outside the provided sources.  `flb_env_var_translate`
resolves environment placeholders; `flb_utils_size_to_bytes` parses a
human-readable byte size and returns -1 when the value is unparsable;
`flb_utils_bool` parses a boolean; `atoi` parses an integer;
`flb_net_host_set` parses a network endpoint from the raw argument and
fails with `none`. -/
structure Externals where
  flb_env_var_translate : List Byte → List Byte
  flb_utils_size_to_bytes : List Byte → Int
  flb_utils_bool : List Byte → Bool
  atoi : List Byte → Int
  flb_net_host_set : List Byte → List Byte → Option FlbNetHost

/-- Embedding of `check_protocol` (flb_input.c, lines 35-51): the
candidate plugin name `prot` matches the raw argument `output` iff it
is no longer than it and `strncasecmp(prot, output, strlen(prot))`
reports equality. -/
def check_protocol (prot output : List Byte) : Bool :=
  if prot.length > output.length then false
  else strncasecmpEq prot output prot.length

/-- Count of instances of plugin address `a` in the registry; helper for
`instance_id`. -/
def countP (cfg : FlbConfig) (a : Nat) : Nat :=
  (cfg.inputs.filter (fun e => e.p.addr == a)).length

/-- Embedding of `instance_id` (lines 53-68): counts the instances of
the same plugin already registered (pointer comparison `entry->p == p`
becomes address equality). -/
def instance_id (p : FlbInputPlugin) (cfg : FlbConfig) : Nat :=
  countP cfg p.addr

/-- Embedding of `collector_id` (lines 71-84): 0 for an empty collector
list, one more than the last collector otherwise
(`mk_list_is_empty` returns 0 exactly when the list is empty). -/
def collector_id (inst : FlbInputInstance) : Int :=
  match inst.collectors.getLast? with
  | none => 0
  | some c => c.id + 1

/-- Decimal rendering of a nonnegative integer, as `snprintf` `%i`
prints the instance index. -/
def decRepr (n : Nat) : List Byte :=
  if n = 0 then [48] else (Nat.digits 10 n).reverse.map (fun d => d + 48)

/-- The instance value built by `flb_input_new` (lines 108-171) before
the optional network setup.  The display name is formatted as
`"<plugin-name>.<index>"`; the C code writes it with `snprintf` into a
fixed-size array whose length lives in a header that is not part of
the sources, so — modelled from the spec — the name is kept
untruncated.  `tag_len` is not written by the C constructor (the field
stays unread until `tag` is set) and the model zeroes it. -/
def input_new_instance (p : FlbInputPlugin) (idv : Nat) (data : Nat) : FlbInputInstance :=
  { p := p, id := idv,
    name := p.name ++ [46] ++ decRepr idv,
    flags := p.flags,
    tag := none, tag_len := 0,
    context := 0, data := data,
    threaded := p.flags &&& FLB_INPUT_THREAD != 0,
    host := { name := none, address := none, uri := none,
              listen := none, port := 0, ipv6 := false },
    mp_records := 0, mp_sbuf := msgpack_sbuffer_init,
    mp_total_buf_size := 0, mp_buf_limit := 0,
    mp_buf_status := FLB_INPUT_RUNNING,
    routes := [], tasks := [], threads := [],
    properties := [], collectors := [], dyntags := [] }

/-- The plugin-matching loop of `flb_input_new` (lines 100-182): every
registered plugin is visited; each match allocates an instance, gets
its per-plugin index, and is appended to `config->inputs`; a failing
network setup aborts the whole call with NULL.  The returned value is
the most recently created instance. -/
def flb_input_new_loop (ext : Externals) (input : List Byte) (data : Nat) :
    List FlbInputPlugin → FlbConfig → Option FlbInputInstance →
    Option FlbInputInstance × FlbConfig
  | [], cfg, acc => (acc, cfg)
  | p :: ps, cfg, acc =>
    if check_protocol p.name input then
      let inst0 := input_new_instance p (instance_id p cfg) data
      if p.flags &&& FLB_INPUT_NET != 0 then
        match ext.flb_net_host_set p.name input with
        | none => (none, cfg)
        | some h =>
          let inst1 := { inst0 with host := h }
          flb_input_new_loop ext input data ps
            { cfg with inputs := cfg.inputs ++ [inst1] } (some inst1)
      else
        flb_input_new_loop ext input data ps
          { cfg with inputs := cfg.inputs ++ [inst0] } (some inst0)
    else
      flb_input_new_loop ext input data ps cfg acc

/-- Embedding of `flb_input_new` (lines 87-185). -/
def flb_input_new (ext : Externals) (cfg : FlbConfig)
    (input : Option (List Byte)) (data : Nat) :
    Option FlbInputInstance × FlbConfig :=
  match input with
  | none => (none, cfg)
  | some s => flb_input_new_loop ext s data cfg.in_plugins cfg none

/-- A sequence of `flb_input_new` calls, collecting each returned
instance. -/
def run_input_new_calls (ext : Externals) (data : Nat) :
    List (List Byte) → FlbConfig →
    List (Option FlbInputInstance) × FlbConfig
  | [], cfg => ([], cfg)
  | s :: ss, cfg =>
    let r := flb_input_new ext cfg (some s) data
    let rest := run_input_new_calls ext data ss r.2
    (r.1 :: rest.1, rest.2)

/-- Embedding of `prop_key_check(key, kv, k_len) == 0` (lines 187-198):
true iff the first `k_len` bytes compare equal case-insensitively and
`key` has length `k_len`.  All call sites pass `k_len = strlen(kv)`. -/
def prop_key_check (key kv : List Byte) (k_len : Nat) : Bool :=
  strncasecmpEq key kv k_len && key.length == k_len

/-- Embedding of `flb_input_set_property` (lines 200-262).  The resolved
value is dropped when empty; reserved keys update dedicated fields; any
other key — or a reserved key whose guard requires a non-empty value
when the value resolved to empty — is appended verbatim to the property
store.  The `(size_t)` cast of the parsed limit is the two-complement
reading of the signed value. -/
def flb_input_set_property (ext : Externals) (inst : FlbInputInstance)
    (k v : List Byte) : Int × FlbInputInstance :=
  let len := k.length
  let tmp0 := ext.flb_env_var_translate v
  let tmp : Option (List Byte) := if tmp0.length = 0 then none else some tmp0
  if prop_key_check (bytes "tag") k len && tmp.isSome then
    (0, { inst with tag := tmp, tag_len := (tmp.getD []).length })
  else if prop_key_check (bytes "mem_buf_limit") k len && tmp.isSome then
    let limit := ext.flb_utils_size_to_bytes (tmp.getD [])
    if limit == -1 then (-1, inst)
    else (0, { inst with mp_buf_limit := (limit % (2 ^ 64 : Nat)).toNat })
  else if prop_key_check (bytes "listen") k len then
    (0, { inst with host := { inst.host with listen := tmp } })
  else if prop_key_check (bytes "host") k len then
    (0, { inst with host := { inst.host with name := tmp } })
  else if prop_key_check (bytes "port") k len then
    match tmp with
    | some t => (0, { inst with host := { inst.host with port := ext.atoi t } })
    | none => (0, inst)
  else if prop_key_check (bytes "ipv6") k len && tmp.isSome then
    (0, { inst with host := { inst.host with ipv6 := ext.flb_utils_bool (tmp.getD []) } })
  else
    (0, { inst with properties := inst.properties ++ [{ key := k, val := tmp }] })

/-- Embedding of `flb_input_set_collector_time` (lines 458-482). -/
def flb_input_set_collector_time (inst : FlbInputInstance) (cb : Nat)
    (seconds nanoseconds : Int) (cfg : FlbConfig) :
    Int × FlbInputInstance × FlbConfig :=
  let c : FlbInputCollector :=
    { id := collector_id inst, ctype := FLB_COLLECT_TIME, cb_collect := cb,
      fd_event := -1, fd_timer := -1, seconds := seconds,
      nanoseconds := nanoseconds, running := false, event := mkEventNew }
  (c.id, { inst with collectors := inst.collectors ++ [c] },
   { cfg with collectors := cfg.collectors ++ [c] })

/-- Embedding of `flb_input_set_collector_event` (lines 484-507). -/
def flb_input_set_collector_event (inst : FlbInputInstance) (cb : Nat)
    (fd : Int) (cfg : FlbConfig) : Int × FlbInputInstance × FlbConfig :=
  let c : FlbInputCollector :=
    { id := collector_id inst, ctype := FLB_COLLECT_FD_EVENT, cb_collect := cb,
      fd_event := fd, fd_timer := -1, seconds := -1,
      nanoseconds := -1, running := false, event := mkEventNew }
  (c.id, { inst with collectors := inst.collectors ++ [c] },
   { cfg with collectors := cfg.collectors ++ [c] })

/-- Embedding of `flb_input_set_collector_socket` (lines 728-751).  The
C function, unlike the other two registrations, never writes
`collector->id`: the field keeps whatever value the allocator left in
that heap cell, which the model renders as the extra `junk` argument.
The function also returns the constant 0 rather than the collector id. -/
def flb_input_set_collector_socket (junk : Int) (inst : FlbInputInstance)
    (cb : Nat) (fd : Int) (cfg : FlbConfig) :
    Int × FlbInputInstance × FlbConfig :=
  let c : FlbInputCollector :=
    { id := junk, ctype := FLB_COLLECT_FD_SERVER, cb_collect := cb,
      fd_event := fd, fd_timer := -1, seconds := -1,
      nanoseconds := -1, running := false, event := mkEventNew }
  (0, { inst with collectors := inst.collectors ++ [c] },
   { cfg with collectors := cfg.collectors ++ [c] })

/-- Embedding of `get_collector` (lines 594-608): first collector of the
instance with the given id. -/
def get_collector (cid : Int) (inst : FlbInputInstance) : Option FlbInputCollector :=
  inst.collectors.find? (fun c => c.id == cid)

/-- Replace the first collector carrying the given id, the model of a C
mutation through the pointer `get_collector` returned. -/
def replaceFirstCollector (cid : Int) (c1 : FlbInputCollector) :
    List FlbInputCollector → List FlbInputCollector
  | [] => []
  | c :: cs =>
    if c.id == cid then c1 :: cs else c :: replaceFirstCollector cid c1 cs

/-- Embedding of `collector_start` (lines 509-555). -/
def collector_start (coll : FlbInputCollector) (cfg : FlbConfig) :
    Int × FlbInputCollector × FlbConfig :=
  if coll.running then (0, coll, cfg)
  else if coll.ctype == FLB_COLLECT_TIME then
    let ev0 := { coll.event with mask := MK_EVENT_EMPTY, status := MK_EVENT_NONE }
    let r := mk_event_timeout_create cfg.evl coll.seconds coll.nanoseconds ev0
    if r.1 == -1 then (-1, { coll with event := ev0, running := false }, cfg)
    else (0, { coll with event := r.2.1, fd_timer := r.1, running := true },
          { cfg with evl := r.2.2 })
  else if coll.ctype &&& (FLB_COLLECT_FD_EVENT ||| FLB_COLLECT_FD_SERVER) != 0 then
    let ev0 := { coll.event with
                 fd := coll.fd_event, mask := MK_EVENT_EMPTY, status := MK_EVENT_NONE }
    let r := mk_event_add cfg.evl coll.fd_event FLB_ENGINE_EV_CORE MK_EVENT_READ ev0
    if r.1 == -1 then (-1, { coll with event := ev0, running := false }, cfg)
    else (0, { coll with event := r.2.1, running := true }, { cfg with evl := r.2.2 })
  else (0, { coll with running := true }, cfg)

/-- Embedding of `flb_input_collector_start` (lines 557-578). -/
def flb_input_collector_start (coll_id : Int) (inst : FlbInputInstance)
    (cfg : FlbConfig) : Int × FlbInputInstance × FlbConfig :=
  match get_collector coll_id inst with
  | none => (-1, inst, cfg)
  | some coll =>
    let r := collector_start coll cfg
    (r.1, { inst with collectors := replaceFirstCollector coll_id r.2.1 inst.collectors },
     r.2.2)

/-- Embedding of `flb_input_collector_pause` (lines 643-679). -/
def flb_input_collector_pause (coll_id : Int) (inst : FlbInputInstance)
    (cfg : FlbConfig) : Int × FlbInputInstance × FlbConfig :=
  match get_collector coll_id inst with
  | none => (-1, inst, cfg)
  | some coll =>
    if coll.ctype == FLB_COLLECT_TIME then
      let evl1 := mk_event_del cfg.evl coll.event
      let coll1 := { coll with fd_timer := -1, running := false }
      (0, { inst with collectors := replaceFirstCollector coll_id coll1 inst.collectors },
       { cfg with evl := evl1 })
    else if coll.ctype &&& (FLB_COLLECT_FD_SERVER ||| FLB_COLLECT_FD_EVENT) != 0 then
      let r := mk_event_add cfg.evl coll.fd_event FLB_ENGINE_EV_CORE MK_EVENT_IDLE coll.event
      let coll1 := { coll with event := r.2.1, running := false }
      (0, { inst with collectors := replaceFirstCollector coll_id coll1 inst.collectors },
       { cfg with evl := r.2.2 })
    else
      (0, { inst with collectors :=
              replaceFirstCollector coll_id { coll with running := false } inst.collectors },
       cfg)

/-- Embedding of `flb_input_collector_resume` (lines 681-726).  Note
that the C function never writes `coll->running` back to true: on a
successful resume the collector keeps `running == FLB_FALSE`. -/
def flb_input_collector_resume (coll_id : Int) (inst : FlbInputInstance)
    (cfg : FlbConfig) : Int × FlbInputInstance × FlbConfig :=
  match get_collector coll_id inst with
  | none => (-1, inst, cfg)
  | some coll =>
    if coll.running then (-1, inst, cfg)
    else if coll.ctype == FLB_COLLECT_TIME then
      let ev0 := { coll.event with mask := MK_EVENT_EMPTY, status := MK_EVENT_NONE }
      let r := mk_event_timeout_create cfg.evl coll.seconds coll.nanoseconds ev0
      if r.1 == -1 then (-1, inst, cfg)
      else
        let coll1 := { coll with event := r.2.1, fd_timer := r.1 }
        (0, { inst with collectors := replaceFirstCollector coll_id coll1 inst.collectors },
         { cfg with evl := r.2.2 })
    else if coll.ctype &&& (FLB_COLLECT_FD_SERVER ||| FLB_COLLECT_FD_EVENT) != 0 then
      let r := mk_event_add cfg.evl coll.fd_event FLB_ENGINE_EV_CORE MK_EVENT_READ coll.event
      if !(r.1 == 0) then (-1, inst, cfg)
      else
        let coll1 := { coll with event := r.2.1 }
        (0, { inst with collectors := replaceFirstCollector coll_id coll1 inst.collectors },
         { cfg with evl := r.2.2 })
    else (0, inst, cfg)

/-- Embedding of `flb_input_dyntag_create` (lines 753-783): rejects an
empty tag, otherwise appends a fresh unlocked, non-busy, empty buffer
for the tag to the instance list.  The C function returns the node
pointer; the model returns the updated instance (the new node sits at
the end of `dyntags`). -/
def flb_input_dyntag_create (inst : FlbInputInstance) (tag : List Byte) :
    Option FlbInputInstance :=
  if tag.length < 1 then none
  else
    some { inst with dyntags := inst.dyntags ++
            [{ busy := false, lock := false, tag := tag,
               tag_len := tag.length, mp_sbuf := msgpack_sbuffer_init }] }

/-- The per-node test of the search loop in `flb_input_dyntag_get`
(lines 819-836): a node is skipped while busy or locked, or when the
tag length or the tag bytes (`strncmp`) differ. -/
def dyntag_match (dt : FlbInputDyntag) (tag : List Byte) : Bool :=
  !(dt.busy || dt.lock) && dt.tag_len == tag.length
    && strncmpEq dt.tag tag tag.length

/-- Index of the first list node passing `dyntag_match`. -/
def findMatchIdx (tag : List Byte) : List FlbInputDyntag → Option Nat
  | [] => none
  | dt :: rest =>
    if dyntag_match dt tag then some 0
    else (findMatchIdx tag rest).map (fun i => i + 1)

/-- Embedding of `flb_input_dyntag_get` (lines 811-847): the first
reusable buffer of the tag, or a freshly created one.  The model
returns the index of the buffer within the (possibly extended)
instance list, standing for the node pointer the C function returns. -/
def flb_input_dyntag_get (tag : List Byte) (inst : FlbInputInstance) :
    Option (Nat × FlbInputInstance) :=
  match findMatchIdx tag inst.dyntags with
  | some i => some (i, inst)
  | none =>
    match flb_input_dyntag_create inst tag with
    | none => none
    | some inst1 => some (inst.dyntags.length, inst1)

/-- Apply `f` to the list element at position `i`. -/
def modifyIdx (f : FlbInputDyntag → FlbInputDyntag) :
    List FlbInputDyntag → Nat → List FlbInputDyntag
  | [], _ => []
  | dt :: rest, 0 => f dt :: rest
  | dt :: rest, n + 1 => dt :: modifyIdx f rest n

/-- The append-and-maybe-lock step shared by both append entry points
(lines 861-868 and 886-897): write the bytes, then set `lock` when the
buffer size exceeds 2048000 bytes.  The scoped write bracket
(`flb_input_dbuf_write_start` / `flb_input_dbuf_write_end`) is a
liveness marker with no effect on the resulting state and is not
modelled. -/
def dyntag_append_step (buf : List Byte) (dt : FlbInputDyntag) : FlbInputDyntag :=
  let s := msgpack_sbuffer_write dt.mp_sbuf buf
  let dt1 := { dt with mp_sbuf := s }
  if 2048000 < s.size then { dt1 with lock := true } else dt1

/-- Embedding of `flb_input_dyntag_append_raw` (lines 874-899). -/
def flb_input_dyntag_append_raw (inst : FlbInputInstance)
    (tag buf : List Byte) : Int × FlbInputInstance :=
  match flb_input_dyntag_get tag inst with
  | none => (-1, inst)
  | some (i, inst1) =>
    (0, { inst1 with dyntags := modifyIdx (dyntag_append_step buf) inst1.dyntags i })

/-- Embedding of `flb_input_dyntag_append_obj` (lines 850-871).  The
record encoder is opaque (modelled from the spec as an append-only
serializer), so a `msgpack_object` is represented by its encoded
bytes; packing it writes those bytes, after which the same size check
runs. -/
def flb_input_dyntag_append_obj (inst : FlbInputInstance)
    (tag obj : List Byte) : Int × FlbInputInstance :=
  match flb_input_dyntag_get tag inst with
  | none => (-1, inst)
  | some (i, inst1) =>
    (0, { inst1 with dyntags := modifyIdx (dyntag_append_step obj) inst1.dyntags i })

/-- Embedding of `flb_input_flush` (lines 902-927): NULL (and an
untouched size out-parameter) for an empty buffer, otherwise a copy of
the buffered bytes together with their size, with the instance buffer
reinitialized and the record counter cleared.  The returned pair is
`none` exactly when the C function returns without writing `*size`. -/
def flb_input_flush (inst : FlbInputInstance) :
    Option (List Byte × Nat) × FlbInputInstance :=
  if inst.mp_sbuf.size = 0 then (none, inst)
  else
    (some (inst.mp_sbuf.data, inst.mp_sbuf.size),
     { inst with mp_records := 0, mp_sbuf := msgpack_sbuffer_init })

/-- Embedding of `flb_input_dyntag_flush` (lines 930-953): hands the
buffered bytes out (ownership transfer, no copy), clears `lock`, sets
`busy`, and reinitializes the buffer in place. -/
def flb_input_dyntag_flush (dt : FlbInputDyntag) :
    (List Byte × Nat) × FlbInputDyntag :=
  ((dt.mp_sbuf.data, dt.mp_sbuf.size),
   { dt with lock := false, busy := true, mp_sbuf := msgpack_sbuffer_init })

/-- A plugin descriptor used by the concrete witnesses: name `cpu`. -/
def pluginW : FlbInputPlugin := { addr := 1, name := bytes "cpu", flags := 0 }

/-- A fresh instance of `pluginW` used by the concrete witnesses. -/
def instW : FlbInputInstance := input_new_instance pluginW 0 0

/-- An empty registry with a fresh reactor, used by the witnesses. -/
def cfgW : FlbConfig :=
  { in_plugins := [pluginW], inputs := [], collectors := [],
    evl := { nextFd := 0, subs := [] } }

/-- External-helper instantiation used by the witnesses: identity
environment resolution, a byte-size parser that rejects every value,
and trivial remaining parsers. -/
def extW : Externals :=
  { flb_env_var_translate := fun v => v,
    flb_utils_size_to_bytes := fun _ => -1,
    flb_utils_bool := fun _ => false,
    atoi := fun _ => 0,
    flb_net_host_set := fun _ _ => none }

/-- C7: resuming a collector that is already in the `running = true`
state fails with -1 and leaves the instance and the configuration
(running flag, timer handle and event registrations included) exactly
as they were. -/
theorem resume_already_running_fails (coll_id : Int) (inst : FlbInputInstance)
    (cfg : FlbConfig) (coll : FlbInputCollector)
    (hget : get_collector coll_id inst = some coll)
    (hrun : coll.running = true) :
    flb_input_collector_resume coll_id inst cfg = (-1, inst, cfg) := by
  unfold flb_input_collector_resume
  rw [hget]
  simp [hrun]

/-- The instance holding one running TIME collector, obtained by
registering and starting it on a fresh instance; used by the C7
witness. -/
def instRunningW : FlbInputInstance :=
  (flb_input_collector_start 0
      (flb_input_set_collector_time instW 0 1 0 cfgW).2.1
      (flb_input_set_collector_time instW 0 1 0 cfgW).2.2).2.1

/-- The configuration matching `instRunningW`. -/
def cfgRunningW : FlbConfig :=
  (flb_input_collector_start 0
      (flb_input_set_collector_time instW 0 1 0 cfgW).2.1
      (flb_input_set_collector_time instW 0 1 0 cfgW).2.2).2.2

/-- Witness for C7 at a concrete running TIME collector. -/
theorem resume_already_running_fails_witness :
    flb_input_collector_resume 0 instRunningW cfgRunningW =
      (-1, instRunningW, cfgRunningW) :=
  resume_already_running_fails 0 instRunningW cfgRunningW
    ((get_collector 0 instRunningW).get (by decide)) (by decide) (by decide)

/-- The instance after registering, starting, and pausing a TIME
collector (seconds = 1) on a fresh instance: the collector held timer
handle 0 while running, and holds -1 after the pause. -/
def instPausedW : FlbInputInstance :=
  (flb_input_collector_pause 0 instRunningW cfgRunningW).2.1

/-- The configuration matching `instPausedW`. -/
def cfgPausedW : FlbConfig :=
  (flb_input_collector_pause 0 instRunningW cfgRunningW).2.2

/-- C1: pausing and then resuming a TIME collector.  The resume call
succeeds and installs a newly created timer handle (1) distinct from
the handle held before the pause (0), but the collector is left in the
`running = false` state: `flb_input_collector_resume` never writes the
`running` flag back to true, so the claimed `running = true` outcome
does not hold.  This theorem evaluates the code on the failing input. -/
theorem resume_after_pause_leaves_running_false :
    (get_collector 0 instRunningW).map (fun c => c.fd_timer) = some 0
    ∧ (get_collector 0 instRunningW).map (fun c => c.running) = some true
    ∧ (flb_input_collector_resume 0 instPausedW cfgPausedW).1 = 0
    ∧ (get_collector 0 (flb_input_collector_resume 0 instPausedW cfgPausedW).2.1).map
        (fun c => c.fd_timer) = some 1
    ∧ (get_collector 0 (flb_input_collector_resume 0 instPausedW cfgPausedW).2.1).map
        (fun c => c.running) = some false := by
  refine ⟨?_, ?_, ?_, ?_, ?_⟩ <;> decide

/-- C2: collector-id assignment under a mixed registration sequence.
`flb_input_set_collector_socket` never initializes `collector->id`
(the model surfaces the uninitialized heap value as the first
argument, here 7) and returns the constant 0 instead of the assigned
id; a TIME registration that follows continues from the garbage value,
so the ids are [7, 8] rather than [0, 1], and a different garbage
value (3) yields [3, 4] instead.  This theorem evaluates the code on
the failing input. -/
theorem socket_collector_id_uninitialized :
    (flb_input_set_collector_socket 7 instW 0 5 cfgW).1 = 0
    ∧ ((flb_input_set_collector_socket 7 instW 0 5 cfgW).2.1.collectors.map
        (fun c => c.id)) = [7]
    ∧ (flb_input_set_collector_time
        (flb_input_set_collector_socket 7 instW 0 5 cfgW).2.1 0 1 0
        (flb_input_set_collector_socket 7 instW 0 5 cfgW).2.2).1 = 8
    ∧ ((flb_input_set_collector_time
        (flb_input_set_collector_socket 7 instW 0 5 cfgW).2.1 0 1 0
        (flb_input_set_collector_socket 7 instW 0 5 cfgW).2.2).2.1.collectors.map
        (fun c => c.id)) = [7, 8]
    ∧ (flb_input_set_collector_time
        (flb_input_set_collector_socket 3 instW 0 5 cfgW).2.1 0 1 0
        (flb_input_set_collector_socket 3 instW 0 5 cfgW).2.2).1 = 4 := by
  refine ⟨?_, ?_, ?_, ?_, ?_⟩ <;> decide

/-- C4: a flush hands back exactly the buffered content together with
its size and leaves the source buffer logically empty, so a second
flush with no intervening append yields empty content; the dynamic-tag
flush additionally clears `lock` and sets `busy`; the default-buffer
flush resets the record counter, and returns `none` (NULL, size
out-parameter untouched) once the buffer is empty. -/
theorem flush_drains_and_resets (dt : FlbInputDyntag) (inst : FlbInputInstance)
    (A B : List Byte) (h : inst.mp_sbuf.size ≠ 0) :
    (flb_input_dyntag_flush dt).1 = (dt.mp_sbuf.data, dt.mp_sbuf.size)
    ∧ (flb_input_dyntag_flush dt).2.lock = false
    ∧ (flb_input_dyntag_flush dt).2.busy = true
    ∧ (flb_input_dyntag_flush dt).2.mp_sbuf = msgpack_sbuffer_init
    ∧ (flb_input_dyntag_flush (flb_input_dyntag_flush dt).2).1 = ([], 0)
    ∧ (flb_input_dyntag_flush
        { dt with mp_sbuf := msgpack_sbuffer_write (msgpack_sbuffer_write msgpack_sbuffer_init A) B }).1
        = (A ++ B, A.length + B.length)
    ∧ (flb_input_flush inst).1 = some (inst.mp_sbuf.data, inst.mp_sbuf.size)
    ∧ (flb_input_flush inst).2.mp_sbuf = msgpack_sbuffer_init
    ∧ (flb_input_flush inst).2.mp_records = 0
    ∧ (flb_input_flush (flb_input_flush inst).2).1 = none := by
  refine ⟨rfl, rfl, rfl, rfl, rfl, ?_, ?_, ?_, ?_, ?_⟩ <;>
    simp [flb_input_dyntag_flush, flb_input_flush, msgpack_sbuffer_write,
          msgpack_sbuffer_init, h]

/-- An instance with a non-empty default buffer, for the C4 witness. -/
def instFlushW : FlbInputInstance :=
  { instW with mp_sbuf := { size := 2, data := [10, 20] } }

/-- A locked dynamic-tag buffer holding two bytes, for the C4 witness. -/
def dtFlushW : FlbInputDyntag :=
  { busy := false, lock := true, tag := [120], tag_len := 1,
    mp_sbuf := { size := 2, data := [10, 20] } }

/-- Witness for C4 at a concrete buffer and instance. -/
theorem flush_drains_and_resets_witness :
    instFlushW.mp_sbuf.size ≠ 0
    ∧ (flb_input_flush instFlushW).1 = some ([10, 20], 2) :=
  ⟨by decide,
   ((flush_drains_and_resets dtFlushW instFlushW [1] [2, 3]
      (by decide)).2.2.2.2.2.2.1).trans (by decide)⟩

/-- A tag of length zero matches no node: every live node carries a
positive tag length. -/
theorem findMatchIdx_nil_tag (l : List FlbInputDyntag)
    (h : ∀ d ∈ l, 1 ≤ d.tag_len) : findMatchIdx [] l = none := by
  induction l with
  | nil => rfl
  | cons d rest ih =>
    have hd : 1 ≤ d.tag_len := h d (by simp)
    have hm : dyntag_match d [] = false := by
      have : (d.tag_len == 0) = false := by
        simp only [beq_eq_false_iff_ne, ne_eq]
        omega
      simp [dyntag_match, this]
    have hr : findMatchIdx [] rest = none := ih (fun d' hm' => h d' (by simp [hm']))
    simp [findMatchIdx, hm, hr]

/-- C10: appending with an empty tag always fails with -1 and leaves
the instance (in particular its buffer list) unchanged, because buffer
creation rejects empty tags and no live buffer carries one. -/
theorem append_empty_tag_fails (inst : FlbInputInstance) (buf obj : List Byte)
    (hinv : ∀ d ∈ inst.dyntags, 1 ≤ d.tag_len) :
    flb_input_dyntag_create inst [] = none
    ∧ flb_input_dyntag_append_raw inst [] buf = (-1, inst)
    ∧ flb_input_dyntag_append_obj inst [] obj = (-1, inst) := by
  have hnone : findMatchIdx [] inst.dyntags = none := findMatchIdx_nil_tag _ hinv
  refine ⟨rfl, ?_, ?_⟩ <;>
    simp [flb_input_dyntag_append_raw, flb_input_dyntag_append_obj,
          flb_input_dyntag_get, hnone, flb_input_dyntag_create]

/-- Witness for C10 at a concrete instance (fresh, no buffers). -/
theorem append_empty_tag_fails_witness :
    flb_input_dyntag_create instW [] = none
    ∧ flb_input_dyntag_append_raw instW [] [7] = (-1, instW)
    ∧ flb_input_dyntag_append_obj instW [] [9] = (-1, instW) :=
  append_empty_tag_fails instW [7] [9] (by simp [instW, input_new_instance])

/-- `modifyIdx` rewrites exactly the addressed position. -/
theorem modifyIdx_get_self (f : FlbInputDyntag → FlbInputDyntag) :
    ∀ (l : List FlbInputDyntag) (i : Nat),
      (modifyIdx f l i).get? i = (l.get? i).map f
  | [], _ => rfl
  | _ :: _, 0 => rfl
  | _ :: rest, n + 1 => modifyIdx_get_self f rest n

/-- `modifyIdx` leaves every other position unchanged. -/
theorem modifyIdx_get_ne (f : FlbInputDyntag → FlbInputDyntag) :
    ∀ (l : List FlbInputDyntag) (i j : Nat), j ≠ i →
      (modifyIdx f l i).get? j = l.get? j
  | [], _, _, _ => rfl
  | _ :: _, 0, 0, h => absurd rfl h
  | _ :: _, 0, _ + 1, _ => rfl
  | _ :: _, _ + 1, 0, _ => rfl
  | _ :: rest, i + 1, j + 1, h =>
      modifyIdx_get_ne f rest i j (by omega)

/-- `modifyIdx` preserves the length. -/
theorem modifyIdx_length (f : FlbInputDyntag → FlbInputDyntag) :
    ∀ (l : List FlbInputDyntag) (i : Nat),
      (modifyIdx f l i).length = l.length
  | [], _ => rfl
  | _ :: _, 0 => rfl
  | _ :: rest, n + 1 => by
      simp only [modifyIdx, List.length_cons, modifyIdx_length f rest n]

/-- `modifyIdx` applied right past the end of a list hits the appended
element. -/
theorem modifyIdx_append_at_length (f : FlbInputDyntag → FlbInputDyntag)
    (x : FlbInputDyntag) :
    ∀ (l : List FlbInputDyntag), modifyIdx f (l ++ [x]) l.length = l ++ [f x]
  | [] => rfl
  | dt :: rest => congrArg (fun l => dt :: l) (modifyIdx_append_at_length f x rest)

/-- The search returns `none` exactly when no node matches. -/
theorem findMatchIdx_eq_none (tag : List Byte) :
    ∀ (l : List FlbInputDyntag),
      (∀ d ∈ l, dyntag_match d tag = false) → findMatchIdx tag l = none
  | [], _ => rfl
  | dt :: rest, h => by
      have h0 : dyntag_match dt tag = false := h dt (by simp)
      have hr : findMatchIdx tag rest = none :=
        findMatchIdx_eq_none tag rest (fun d hm => h d (by simp [hm]))
      simp [findMatchIdx, h0, hr]

/-- A dynamic-tag buffer with 2000001 accumulated bytes under tag `x`
(reachable: 2000001 does not exceed the lock threshold of the code, so
a real buffer holds this much while still unlocked). -/
def dtC3 : FlbInputDyntag :=
  { busy := false, lock := false, tag := [120], tag_len := 1,
    mp_sbuf := { size := 2000001, data := List.replicate 2000001 97 } }

/-- An instance holding `dtC3` as its only dynamic-tag buffer. -/
def instC3 : FlbInputInstance := { instW with dyntags := [dtC3] }

/-- Counterexample to C3 as stated: appending one byte to a buffer of
2000001 bytes brings it to 2000002 bytes — beyond the claimed
2,000,000-byte threshold — yet the code leaves `lock = false`, because
its threshold is 2048000 bytes. -/
theorem lock_threshold_counterexample :
    ((flb_input_dyntag_append_raw instC3 [120] [98]).2.dyntags.head?.map
       (fun d => d.mp_sbuf.size)) = some 2000002
    ∧ 2000000 < 2000002
    ∧ ((flb_input_dyntag_append_raw instC3 [120] [98]).2.dyntags.head?.map
       (fun d => d.lock)) = some false :=
  ⟨rfl, by decide, rfl⟩

/-- Every list member sits at some index. -/
theorem exists_get?_of_mem :
    ∀ (l : List FlbInputDyntag) (d : FlbInputDyntag), d ∈ l →
      ∃ j, l.get? j = some d
  | [], _, h => absurd h (by simp)
  | x :: xs, d, h => by
      rcases List.mem_cons.mp h with h1 | h2
      · exact ⟨0, by rw [h1]; rfl⟩
      · obtain ⟨j, hj⟩ := exists_get?_of_mem xs d h2
        exact ⟨j + 1, hj⟩

/-- C3 (amended): once an append pushes a buffer beyond 2048000 bytes
the buffer is locked, and the next append for the same tag creates a
second, independent buffer under the same tag (holding only the new
bytes) rather than extending the first.  `honly` states that the
locked buffer was the only node matching the tag, so the second search
finds none. -/
theorem lock_threshold_and_new_buffer (inst : FlbInputInstance)
    (tag buf1 buf2 : List Byte) (i : Nat) (dt : FlbInputDyntag)
    (hfind : findMatchIdx tag inst.dyntags = some i)
    (hdt : inst.dyntags.get? i = some dt)
    (hsz : 2048000 < dt.mp_sbuf.size + buf1.length)
    (honly : ∀ j d, inst.dyntags.get? j = some d →
               dyntag_match d tag = true → j = i)
    (htag : tag ≠ [])
    (hb2 : buf2.length ≤ 2048000) :
    flb_input_dyntag_append_obj inst tag buf1 = flb_input_dyntag_append_raw inst tag buf1
    ∧ (flb_input_dyntag_append_raw inst tag buf1).1 = 0
    ∧ (flb_input_dyntag_append_raw inst tag buf1).2.dyntags.get? i =
        some { dt with mp_sbuf := msgpack_sbuffer_write dt.mp_sbuf buf1, lock := true }
    ∧ (flb_input_dyntag_append_raw
         (flb_input_dyntag_append_raw inst tag buf1).2 tag buf2).1 = 0
    ∧ (flb_input_dyntag_append_raw
         (flb_input_dyntag_append_raw inst tag buf1).2 tag buf2).2.dyntags
        = (flb_input_dyntag_append_raw inst tag buf1).2.dyntags
          ++ [{ busy := false, lock := false, tag := tag, tag_len := tag.length,
                mp_sbuf := { size := buf2.length, data := buf2 } }] := by
  have hstepdt : dyntag_append_step buf1 dt
      = { dt with mp_sbuf := msgpack_sbuffer_write dt.mp_sbuf buf1, lock := true } := by
    simp [dyntag_append_step, msgpack_sbuffer_write, hsz]
  have e1 : flb_input_dyntag_append_raw inst tag buf1
      = (0, { inst with dyntags := modifyIdx (dyntag_append_step buf1) inst.dyntags i }) := by
    simp [flb_input_dyntag_append_raw, flb_input_dyntag_get, hfind]
  have hget1 : (modifyIdx (dyntag_append_step buf1) inst.dyntags i).get? i
      = some { dt with mp_sbuf := msgpack_sbuffer_write dt.mp_sbuf buf1, lock := true } := by
    rw [modifyIdx_get_self, hdt]
    exact congrArg some hstepdt
  have hnone : findMatchIdx tag (modifyIdx (dyntag_append_step buf1) inst.dyntags i)
      = none := by
    apply findMatchIdx_eq_none
    intro d hdmem
    obtain ⟨j, hj⟩ := exists_get?_of_mem _ d hdmem
    by_cases hji : j = i
    · subst hji
      rw [hget1] at hj
      have hd : d.lock = true := by
        cases hj
        rfl
      simp [dyntag_match, hd]
    · rw [modifyIdx_get_ne _ _ _ _ hji] at hj
      cases hmatch : dyntag_match d tag with
      | false => rfl
      | true => exact absurd (honly j d hj hmatch) hji
  have htlen : ¬ tag.length < 1 := by
    cases tag with
    | nil => exact absurd rfl htag
    | cons a as => simp
  have hfresh : dyntag_append_step buf2
      { busy := false, lock := false, tag := tag, tag_len := tag.length,
        mp_sbuf := msgpack_sbuffer_init }
      = { busy := false, lock := false, tag := tag, tag_len := tag.length,
          mp_sbuf := { size := buf2.length, data := buf2 } } := by
    simp [dyntag_append_step, msgpack_sbuffer_write, msgpack_sbuffer_init,
          Nat.not_lt.mpr hb2]
  have e2 : flb_input_dyntag_append_raw
      { inst with dyntags := modifyIdx (dyntag_append_step buf1) inst.dyntags i } tag buf2
      = (0, { inst with dyntags := modifyIdx (dyntag_append_step buf1) inst.dyntags i ++ [{ busy := false, lock := false, tag := tag, tag_len := tag.length, mp_sbuf := { size := buf2.length, data := buf2 } }] }) := by
    simp only [flb_input_dyntag_append_raw, flb_input_dyntag_get, hnone,
               flb_input_dyntag_create, htlen, if_false]
    rw [modifyIdx_append_at_length, hfresh]
  refine ⟨rfl, ?_, ?_, ?_, ?_⟩
  · rw [e1]
  · rw [e1]
    exact hget1
  · rw [e1, e2]
  · rw [e1, e2]

/-- A buffer sitting exactly at 2048000 bytes (still unlocked), for the
C3 witness. -/
def dtA : FlbInputDyntag :=
  { busy := false, lock := false, tag := [120], tag_len := 1,
    mp_sbuf := { size := 2048000, data := List.replicate 2048000 97 } }

/-- An instance holding `dtA` as its only dynamic-tag buffer. -/
def instA : FlbInputInstance := { instW with dyntags := [dtA] }

/-- Witness for the amended C3 at a concrete instance: one more byte
locks the buffer, and the following append opens a second buffer under
the same tag. -/
theorem lock_threshold_and_new_buffer_witness :
    2048000 < dtA.mp_sbuf.size + [98].length
    ∧ (flb_input_dyntag_append_raw instA [120] [98]).2.dyntags.get? 0
        = some { dtA with mp_sbuf := msgpack_sbuffer_write dtA.mp_sbuf [98], lock := true }
    ∧ (flb_input_dyntag_append_raw
         (flb_input_dyntag_append_raw instA [120] [98]).2 [120] [99]).2.dyntags
        = (flb_input_dyntag_append_raw instA [120] [98]).2.dyntags
          ++ [{ busy := false, lock := false, tag := [120], tag_len := [120].length,
                mp_sbuf := { size := [99].length, data := [99] } }] :=
  have h := lock_threshold_and_new_buffer instA [120] [98] [99] 0 dtA rfl rfl
    (by decide)
    (fun j d hj _ => by
      match j with
      | 0 => rfl
      | j + 1 => exact Option.noConfusion hj)
    (by decide) (by decide)
  ⟨by decide, h.2.2.1, h.2.2.2.2⟩

/-- C8: when the key is `mem_buf_limit` and the resolved value is
non-empty but unparsable as a byte size, the call fails with -1 and
the instance — in particular its configured `mp_buf_limit` — is left
unchanged. -/
theorem mem_buf_limit_unparsable_fails (ext : Externals) (inst : FlbInputInstance)
    (k v : List Byte)
    (hk : prop_key_check (bytes "mem_buf_limit") k k.length = true)
    (hv : (ext.flb_env_var_translate v).length ≠ 0)
    (hparse : ext.flb_utils_size_to_bytes (ext.flb_env_var_translate v) = -1) :
    flb_input_set_property ext inst k v = (-1, inst) := by
  have hlen : (bytes "mem_buf_limit").length = k.length := by
    have h2 := (Bool.and_eq_true _ _).mp hk
    simpa using h2.2
  have hk13 : k.length = 13 := by
    have h13 : (bytes "mem_buf_limit").length = 13 := by decide
    omega
  have htag : prop_key_check (bytes "tag") k k.length = false := by
    have h1 : ((bytes "tag").length == k.length) = false := by
      rw [hk13]; decide
    simp [prop_key_check, h1]
  simp [flb_input_set_property, htag, hk, hv, hparse]

/-- Witness for C8: under `extW` every value parses to -1, so setting
`mem_buf_limit` to the (identically resolved, non-empty) value `x`
fails and leaves the instance untouched. -/
theorem mem_buf_limit_unparsable_fails_witness :
    prop_key_check (bytes "mem_buf_limit") (bytes "mem_buf_limit")
        (bytes "mem_buf_limit").length = true
    ∧ (extW.flb_env_var_translate [120]).length ≠ 0
    ∧ flb_input_set_property extW instW (bytes "mem_buf_limit") [120] = (-1, instW) :=
  ⟨by decide, by decide,
   mem_buf_limit_unparsable_fails extW instW (bytes "mem_buf_limit") [120]
     (by decide) (by decide) rfl⟩

/-- Counterexample to C9 as stated: setting `tag` to a value that
resolves to empty is not a no-op — the property store grows by an
entry with key `tag` and an absent value (while the call reports
success and the tag itself indeed stays unset). -/
theorem set_tag_empty_not_noop :
    (flb_input_set_property extW instW (bytes "tag") []).2.properties
        ≠ instW.properties
    ∧ (flb_input_set_property extW instW (bytes "tag") []).2.properties
        = [{ key := bytes "tag", val := none }]
    ∧ (flb_input_set_property extW instW (bytes "tag") []).1 = 0
    ∧ (flb_input_set_property extW instW (bytes "tag") []).2.tag = none := by
  refine ⟨?_, ?_, ?_, ?_⟩ <;> decide

/-- C9 (amended): setting `tag` with a value whose resolved form is
empty returns success and leaves the tag unset and every other
instance field unchanged, except that a property entry with key `tag`
and an absent value is appended to the property store. -/
theorem set_tag_empty_appends_null_property (ext : Externals)
    (inst : FlbInputInstance) (k v : List Byte)
    (hk : prop_key_check (bytes "tag") k k.length = true)
    (hv : (ext.flb_env_var_translate v).length = 0) :
    flb_input_set_property ext inst k v
      = (0, { inst with properties := inst.properties ++ [{ key := k, val := none }] }) := by
  have hlen : (bytes "tag").length = k.length := by
    have h2 := (Bool.and_eq_true _ _).mp hk
    simpa using h2.2
  have hk3 : k.length = 3 := by
    have h3 : (bytes "tag").length = 3 := by decide
    omega
  have hne : ∀ w : List Byte, w.length ≠ 3 →
      prop_key_check w k k.length = false := by
    intro w hw
    have h1 : (w.length == k.length) = false := by
      rw [hk3]
      simpa using hw
    simp [prop_key_check, h1]
  have hmb := hne (bytes "mem_buf_limit") (by decide)
  have hlisten := hne (bytes "listen") (by decide)
  have hhost := hne (bytes "host") (by decide)
  have hport := hne (bytes "port") (by decide)
  have hipv6 := hne (bytes "ipv6") (by decide)
  simp [flb_input_set_property, hk, hv, hmb, hlisten, hhost, hport, hipv6]

/-- Witness for the amended C9 at the concrete key `tag` and the empty
value under identity environment resolution. -/
theorem set_tag_empty_appends_null_property_witness :
    prop_key_check (bytes "tag") (bytes "tag") (bytes "tag").length = true
    ∧ (extW.flb_env_var_translate []).length = 0
    ∧ flb_input_set_property extW instW (bytes "tag") []
        = (0, { instW with properties := instW.properties ++ [{ key := bytes "tag", val := none }] }) :=
  ⟨by decide, by decide,
   set_tag_empty_appends_null_property extW instW (bytes "tag") []
     (by decide) (by decide)⟩

/-- Characterization of `strncasecmp(a, b, strlen(a)) == 0` for a
NUL-free `a` no longer than `b`: it holds iff `a` equals the leading
`a.length` bytes of `b` up to ASCII case. -/
theorem strncasecmpEq_spec : ∀ (a b : List Byte), 0 ∉ a → a.length ≤ b.length →
    (strncasecmpEq a b a.length = true ↔
      a.map asciiLower = (b.take a.length).map asciiLower)
  | [], b, _, _ => by simp [strncasecmpEq]
  | x :: xs, [], _, hlen => by simp at hlen
  | x :: xs, y :: ys, ha, hlen => by
      have hx : (x == 0) = false := by
        have : x ≠ 0 := fun h0 => ha (by simp [h0])
        simpa using this
      have haxs : 0 ∉ xs := fun hm => ha (List.mem_cons_of_mem _ hm)
      have hlen2 : xs.length ≤ ys.length := by simpa using hlen
      simp only [List.length_cons, strncasecmpEq, hx, Bool.false_or,
                 Bool.and_eq_true, beq_iff_eq, List.take_succ_cons,
                 List.map_cons, List.cons.injEq]
      rw [strncasecmpEq_spec xs ys haxs hlen2]

/-- C5 helper: the prefix-match predicate of `flb_input_new`. -/
theorem check_protocol_iff (prot output : List Byte) (hp : 0 ∉ prot) :
    check_protocol prot output = true ↔
      prot.length ≤ output.length ∧
        prot.map asciiLower = (output.take prot.length).map asciiLower := by
  unfold check_protocol
  by_cases h : prot.length > output.length
  · rw [if_pos h]
    constructor
    · intro hco
      exact absurd hco (by simp)
    · rintro ⟨hle, _⟩
      omega
  · have hle : prot.length ≤ output.length := by omega
    rw [if_neg h, strncasecmpEq_spec prot output hp hle]
    simp [hle]

/-- When no remaining plugin matches, the creation loop returns the
accumulator and leaves the registry untouched. -/
theorem input_new_loop_no_match (ext : Externals) (input : List Byte) (data : Nat) :
    ∀ (ps : List FlbInputPlugin) (cfg : FlbConfig) (acc : Option FlbInputInstance),
      (∀ p ∈ ps, check_protocol p.name input = false) →
      flb_input_new_loop ext input data ps cfg acc = (acc, cfg)
  | [], _, _, _ => rfl
  | p :: ps, cfg, acc, h => by
      have hp : check_protocol p.name input = false := h p (by simp)
      have hr := input_new_loop_no_match ext input data ps cfg acc
        (fun q hq => h q (by simp [hq]))
      simp [flb_input_new_loop, hp, hr]

/-- When some plugin matches (and no matching network plugin fails its
endpoint parse), the loop hands back an instance of the last matching
plugin: matching continues over the whole list with no early exit. -/
theorem input_new_loop_last_match (ext : Externals) (input : List Byte) (data : Nat) :
    ∀ (ps : List FlbInputPlugin) (cfg : FlbConfig) (acc : Option FlbInputInstance)
      (pl : FlbInputPlugin),
      (ps.filter (fun p => check_protocol p.name input)).getLast? = some pl →
      (∀ q ∈ ps, check_protocol q.name input = true →
         q.flags &&& FLB_INPUT_NET = 0 ∨ (ext.flb_net_host_set q.name input).isSome = true) →
      ∃ inst, (flb_input_new_loop ext input data ps cfg acc).1 = some inst ∧ inst.p = pl
  | [], _, _, _, hl, _ => by simp at hl
  | p :: ps, cfg, acc, pl, hl, hnet => by
      cases hp : check_protocol p.name input with
      | false =>
          rw [List.filter_cons_of_neg (by simp [hp])] at hl
          simpa [flb_input_new_loop, hp] using
            input_new_loop_last_match ext input data ps cfg acc pl hl
              (fun q hq hm => hnet q (by simp [hq]) hm)
      | true =>
          rw [List.filter_cons_of_pos (by simp [hp])] at hl
          rcases hnet p (by simp) hp with hflag | hsome
          · have hflag2 : (p.flags &&& FLB_INPUT_NET != 0) = false := by
              simp [hflag]
            cases hfil : ps.filter (fun q => check_protocol q.name input) with
            | nil =>
              have hpl : pl = p := by
                rw [hfil, List.getLast?_singleton] at hl
                exact (Option.some.injEq _ _).mp hl.symm
              have hnm : ∀ q ∈ ps, check_protocol q.name input = false := by
                intro q hq
                have := List.filter_eq_nil_iff.mp hfil q hq
                simpa using this
              refine ⟨input_new_instance p (instance_id p cfg) data, ?_, by rw [hpl]; rfl⟩
              simp [flb_input_new_loop, hp, hflag2,
                    input_new_loop_no_match ext input data ps _ _ hnm]
            | cons f fs =>
              have hl2 : (ps.filter (fun q => check_protocol q.name input)).getLast?
                  = some pl := by
                rw [hfil]
                rw [hfil, List.getLast?_cons_cons] at hl
                exact hl
              have ih := input_new_loop_last_match ext input data ps
                { cfg with inputs := cfg.inputs ++
                    [input_new_instance p (instance_id p cfg) data] }
                (some (input_new_instance p (instance_id p cfg) data)) pl hl2
                (fun q hq hm => hnet q (by simp [hq]) hm)
              simpa [flb_input_new_loop, hp, hflag2] using ih
          · obtain ⟨hh, hheq⟩ := Option.isSome_iff_exists.mp hsome
            have hflag3 : (p.flags &&& FLB_INPUT_NET != 0) = true ∨
                (p.flags &&& FLB_INPUT_NET != 0) = false := by
              cases p.flags &&& FLB_INPUT_NET != 0 <;> simp
            cases hfil : ps.filter (fun q => check_protocol q.name input) with
            | nil =>
              have hpl : pl = p := by
                rw [hfil, List.getLast?_singleton] at hl
                exact (Option.some.injEq _ _).mp hl.symm
              have hnm : ∀ q ∈ ps, check_protocol q.name input = false := by
                intro q hq
                have := List.filter_eq_nil_iff.mp hfil q hq
                simpa using this
              rcases hflag3 with hf | hf
              · refine ⟨{ input_new_instance p (instance_id p cfg) data with host := hh },
                  ?_, by rw [hpl]; rfl⟩
                simp [flb_input_new_loop, hp, hf, hheq,
                      input_new_loop_no_match ext input data ps _ _ hnm]
              · refine ⟨input_new_instance p (instance_id p cfg) data, ?_, by rw [hpl]; rfl⟩
                simp [flb_input_new_loop, hp, hf,
                      input_new_loop_no_match ext input data ps _ _ hnm]
            | cons f fs =>
              have hl2 : (ps.filter (fun q => check_protocol q.name input)).getLast?
                  = some pl := by
                rw [hfil]
                rw [hfil, List.getLast?_cons_cons] at hl
                exact hl
              rcases hflag3 with hf | hf
              · have ih := input_new_loop_last_match ext input data ps
                  { cfg with inputs := cfg.inputs ++
                      [{ input_new_instance p (instance_id p cfg) data with host := hh }] }
                  (some { input_new_instance p (instance_id p cfg) data with host := hh })
                  pl hl2 (fun q hq hm => hnet q (by simp [hq]) hm)
                simpa [flb_input_new_loop, hp, hf, hheq] using ih
              · have ih := input_new_loop_last_match ext input data ps
                  { cfg with inputs := cfg.inputs ++
                      [input_new_instance p (instance_id p cfg) data] }
                  (some (input_new_instance p (instance_id p cfg) data)) pl hl2
                  (fun q hq hm => hnet q (by simp [hq]) hm)
                simpa [flb_input_new_loop, hp, hf] using ih

/-- C5: `flb_input_new` matches the raw argument against plugin names
case-insensitively by prefix (the candidate must be no longer than the
argument and equal its leading bytes up to case); with no match the
call yields no instance and changes nothing; with matches, every
plugin is checked with no early exit, so the returned instance belongs
to the last matching plugin (provided no matching network plugin fails
its endpoint parse, in which case the call aborts with no instance). -/
theorem input_new_prefix_match_last_wins (ext : Externals) (cfg : FlbConfig)
    (input prot output : List Byte) (data : Nat) (hp : 0 ∉ prot) :
    (check_protocol prot output = true ↔
      prot.length ≤ output.length ∧
        prot.map asciiLower = (output.take prot.length).map asciiLower)
    ∧ ((∀ q ∈ cfg.in_plugins, check_protocol q.name input = false) →
        flb_input_new ext cfg (some input) data = (none, cfg))
    ∧ (∀ pl, (cfg.in_plugins.filter (fun q => check_protocol q.name input)).getLast?
          = some pl →
        (∀ q ∈ cfg.in_plugins, check_protocol q.name input = true →
           q.flags &&& FLB_INPUT_NET = 0 ∨
             (ext.flb_net_host_set q.name input).isSome = true) →
        ∃ inst, (flb_input_new ext cfg (some input) data).1 = some inst
          ∧ inst.p = pl) := by
  refine ⟨check_protocol_iff prot output hp, ?_, ?_⟩
  · intro h
    simp [flb_input_new, input_new_loop_no_match ext input data cfg.in_plugins cfg none h]
  · intro pl hl hnet
    simpa [flb_input_new] using
      input_new_loop_last_match ext input data cfg.in_plugins cfg none pl hl hnet

/-- Second witness plugin: name `c`, a strict prefix of `cpu`. -/
def pluginAW : FlbInputPlugin := { addr := 11, name := bytes "c", flags := 0 }

/-- Third witness plugin: name `cp`, also a prefix of `cpu`. -/
def pluginBW : FlbInputPlugin := { addr := 12, name := bytes "cp", flags := 0 }

/-- A registry holding the two prefix-overlapping plugins. -/
def cfg5W : FlbConfig :=
  { in_plugins := [pluginAW, pluginBW], inputs := [], collectors := [],
    evl := { nextFd := 0, subs := [] } }

/-- Witness for C5: with plugins `c` and `cp` both matching the raw
argument `cpu`, the returned instance belongs to the last match `cp`. -/
theorem input_new_prefix_match_last_wins_witness :
    (0 : Byte) ∉ bytes "c"
    ∧ ∃ inst, (flb_input_new extW cfg5W (some (bytes "cpu")) 0).1 = some inst
        ∧ inst.p = pluginBW :=
  ⟨by decide,
   (input_new_prefix_match_last_wins extW cfg5W (bytes "cpu") (bytes "c")
      (bytes "cpu") 0 (by decide)).2.2 pluginBW (by decide)
     (fun q hq _ => by
        have hq2 : q = pluginAW ∨ q = pluginBW := by
          simpa [cfg5W] using hq
        rcases hq2 with rfl | rfl
        · exact Or.inl (by decide)
        · exact Or.inl (by decide))⟩

/-- A nonzero number never renders as the single digit `0`. -/
theorem decRepr_aux (k : Nat) (hk : k ≠ 0)
    (h : (Nat.digits 10 k).reverse.map (fun d => d + 48) = [48]) : False := by
  have hlen : (Nat.digits 10 k).length = 1 := by
    have := congrArg List.length h
    simpa using this
  obtain ⟨d, hd⟩ := List.length_eq_one.mp hlen
  rw [hd] at h
  simp only [List.reverse_cons, List.reverse_nil, List.nil_append,
             List.map_cons, List.map_nil, List.cons.injEq, and_true] at h
  have hd0 : d = 0 := by omega
  have hofk := Nat.ofDigits_digits 10 k
  rw [hd, hd0] at hofk
  simp [Nat.ofDigits] at hofk
  exact hk hofk.symm

/-- Decimal rendering is injective. -/
theorem decRepr_injective : Function.Injective decRepr := by
  intro m n h
  unfold decRepr at h
  by_cases hm : m = 0 <;> by_cases hn : n = 0
  · rw [hm, hn]
  · rw [if_pos hm, if_neg hn] at h
    exact absurd (decRepr_aux n hn h.symm) (fun f => f)
  · rw [if_neg hm, if_pos hn] at h
    exact absurd (decRepr_aux m hm h) (fun f => f)
  · rw [if_neg hm, if_neg hn] at h
    have hinj : Function.Injective (fun d : Nat => d + 48) := fun x y hxy => Nat.add_right_cancel hxy
    have h1 : (Nat.digits 10 m).reverse = (Nat.digits 10 n).reverse :=
      List.map_injective_iff.mpr hinj h
    have h2 : Nat.digits 10 m = Nat.digits 10 n := by
      have := congrArg List.reverse h1
      simpa using this
    have h3 := congrArg (Nat.ofDigits 10) h2
    rwa [Nat.ofDigits_digits, Nat.ofDigits_digits] at h3

/-- Two display names of the same plugin agree only on equal indices. -/
theorem name_format_injective (pn : List Byte) {i j : Nat}
    (h : pn ++ [46] ++ decRepr i = pn ++ [46] ++ decRepr j) : i = j :=
  decRepr_injective (List.append_cancel_left h)

/-- The creation loop never touches the plugin list. -/
theorem input_new_loop_in_plugins (ext : Externals) (input : List Byte) (data : Nat) :
    ∀ (ps : List FlbInputPlugin) (cfg : FlbConfig) (acc : Option FlbInputInstance),
      ((flb_input_new_loop ext input data ps cfg acc).2).in_plugins = cfg.in_plugins
  | [], _, _ => rfl
  | p :: ps, cfg, acc => by
      by_cases hp : check_protocol p.name input = true
      · by_cases hf : (p.flags &&& FLB_INPUT_NET != 0) = true
        · cases hns : ext.flb_net_host_set p.name input with
          | none => simp [flb_input_new_loop, hp, hf, hns]
          | some hh =>
              simp [flb_input_new_loop, hp, hf, hns,
                    input_new_loop_in_plugins ext input data ps _ _]
        · have hf2 : (p.flags &&& FLB_INPUT_NET != 0) = false := by simpa using hf
          simp [flb_input_new_loop, hp, hf2,
                input_new_loop_in_plugins ext input data ps _ _]
      · have hp2 : check_protocol p.name input = false := by simpa using hp
        simp [flb_input_new_loop, hp2,
              input_new_loop_in_plugins ext input data ps _ _]

/-- `flb_input_new` never touches the plugin list. -/
theorem flb_input_new_in_plugins (ext : Externals) (cfg : FlbConfig)
    (inp : Option (List Byte)) (data : Nat) :
    ((flb_input_new ext cfg inp data).2).in_plugins = cfg.in_plugins := by
  cases inp with
  | none => rfl
  | some s => exact input_new_loop_in_plugins ext s data cfg.in_plugins cfg none

/-- Appending one instance to the registry raises the per-plugin count
by one exactly for that plugin address. -/
theorem countP_append_one (cfg : FlbConfig) (inst : FlbInputInstance) (a : Nat) :
    countP { cfg with inputs := cfg.inputs ++ [inst] } a
      = countP cfg a + (if inst.p.addr == a then 1 else 0) := by
  simp only [countP, List.filter_append, List.length_append]
  cases h : inst.p.addr == a <;> simp [List.filter, h]

/-- On a matching plugin the loop either aborts (failed endpoint parse
of a network plugin) or proceeds over the tail with a freshly created
instance of that plugin appended to the registry. -/
theorem input_new_loop_cons_match (ext : Externals) (input : List Byte) (data : Nat)
    (p : FlbInputPlugin) (ps : List FlbInputPlugin) (cfg : FlbConfig)
    (acc : Option FlbInputInstance)
    (hp : check_protocol p.name input = true) :
    flb_input_new_loop ext input data (p :: ps) cfg acc = (none, cfg)
    ∨ ∃ instX, instX.p = p ∧ instX.id = instance_id p cfg
        ∧ instX.name = p.name ++ [46] ++ decRepr (instance_id p cfg)
        ∧ flb_input_new_loop ext input data (p :: ps) cfg acc
            = flb_input_new_loop ext input data ps
                { cfg with inputs := cfg.inputs ++ [instX] } (some instX) := by
  by_cases hf : (p.flags &&& FLB_INPUT_NET != 0) = true
  · cases hns : ext.flb_net_host_set p.name input with
    | none => exact Or.inl (by simp [flb_input_new_loop, hp, hf, hns])
    | some hh =>
        exact Or.inr ⟨{ input_new_instance p (instance_id p cfg) data with host := hh },
          rfl, rfl, rfl, by simp [flb_input_new_loop, hp, hf, hns]⟩
  · have hf2 : (p.flags &&& FLB_INPUT_NET != 0) = false := by simpa using hf
    exact Or.inr ⟨input_new_instance p (instance_id p cfg) data,
      rfl, rfl, rfl, by simp [flb_input_new_loop, hp, hf2]⟩

/-- Over a stretch of plugins none of which has address `a`, the loop
neither changes the count of `a`-instances nor produces an
`a`-instance of its own. -/
theorem input_new_loop_count_free (ext : Externals) (input : List Byte) (data : Nat)
    (a : Nat) :
    ∀ (ps : List FlbInputPlugin) (cfg : FlbConfig) (acc : Option FlbInputInstance),
      (∀ q ∈ ps, q.addr ≠ a) →
      countP (flb_input_new_loop ext input data ps cfg acc).2 a = countP cfg a
      ∧ ((flb_input_new_loop ext input data ps cfg acc).1 = acc
         ∨ (flb_input_new_loop ext input data ps cfg acc).1 = none
         ∨ ∃ j, (flb_input_new_loop ext input data ps cfg acc).1 = some j
             ∧ j.p.addr ≠ a)
  | [], _, _, _ => ⟨rfl, Or.inl rfl⟩
  | p :: ps, cfg, acc, hfree => by
      by_cases hp : check_protocol p.name input = true
      · rcases input_new_loop_cons_match ext input data p ps cfg acc hp with
          habort | ⟨instX, hXp, _, _, heq⟩
        · rw [habort]
          exact ⟨rfl, Or.inr (Or.inl rfl)⟩
        · rw [heq]
          have hpa : p.addr ≠ a := hfree p (by simp)
          have hXa : (instX.p.addr == a) = false := by
            rw [hXp]
            simpa using hpa
          have hrec := input_new_loop_count_free ext input data a ps
            { cfg with inputs := cfg.inputs ++ [instX] } (some instX)
            (fun q hq => hfree q (by simp [hq]))
          refine ⟨?_, ?_⟩
          · rw [hrec.1, countP_append_one, hXa]
            simp
          · rcases hrec.2 with h1 | h1 | h1
            · exact Or.inr (Or.inr ⟨instX, h1, by rw [hXp]; exact hpa⟩)
            · exact Or.inr (Or.inl h1)
            · exact Or.inr (Or.inr h1)
      · have hp2 : check_protocol p.name input = false := by simpa using hp
        have heq : flb_input_new_loop ext input data (p :: ps) cfg acc
            = flb_input_new_loop ext input data ps cfg acc := by
          simp [flb_input_new_loop, hp2]
        rw [heq]
        exact input_new_loop_count_free ext input data a ps cfg acc
          (fun q hq => hfree q (by simp [hq]))

/-- Main C6 loop lemma: when at most one plugin in the remaining list
has address `a` and the accumulator is not an `a`-instance, a returned
`a`-instance got its id from the `a`-count at creation time, and the
final `a`-count is one higher. -/
theorem input_new_loop_id_count (ext : Externals) (input : List Byte) (data : Nat)
    (a : Nat) :
    ∀ (ps : List FlbInputPlugin) (cfg : FlbConfig) (acc : Option FlbInputInstance)
      (inst : FlbInputInstance),
      (ps.filter (fun q => q.addr == a)).length ≤ 1 →
      (∀ j, acc = some j → j.p.addr ≠ a) →
      (flb_input_new_loop ext input data ps cfg acc).1 = some inst →
      inst.p.addr = a →
      inst.id = countP cfg a
      ∧ countP (flb_input_new_loop ext input data ps cfg acc).2 a = countP cfg a + 1
  | [], cfg, acc, inst, _, hacc, hres, hinst =>
      absurd hinst (hacc inst hres)
  | p :: ps, cfg, acc, inst, hU, hacc, hres, hinst => by
      by_cases hp : check_protocol p.name input = true
      · rcases input_new_loop_cons_match ext input data p ps cfg acc hp with
          habort | ⟨instX, hXp, hXid, _, heq⟩
        · rw [habort] at hres
          exact absurd hres (by simp)
        · rw [heq] at hres ⊢
          by_cases hpa : p.addr = a
          · have hUone : (ps.filter (fun q => q.addr == a)).length = 0 := by
              have hcons : List.filter (fun q => q.addr == a) (p :: ps)
                  = p :: List.filter (fun q => q.addr == a) ps := by
                simp [List.filter_cons, hpa]
              rw [hcons, List.length_cons] at hU
              omega
            have hfree : ∀ q ∈ ps, q.addr ≠ a := by
              intro q hq
              have := List.filter_eq_nil_iff.mp (List.length_eq_zero.mp hUone) q hq
              simpa using this
            have hrec := input_new_loop_count_free ext input data a ps
              { cfg with inputs := cfg.inputs ++ [instX] } (some instX) hfree
            have hXa : (instX.p.addr == a) = true := by
              rw [hXp]
              simpa using hpa
            have hcnt1 : countP { cfg with inputs := cfg.inputs ++ [instX] } a
                = countP cfg a + 1 := by
              rw [countP_append_one, hXa]
              simp
            have hinstX : inst = instX := by
              rcases hrec.2 with h1 | h1 | h1
              · rw [hres] at h1
                exact (Option.some.injEq _ _).mp h1
              · rw [hres] at h1
                exact absurd h1 (by simp)
              · obtain ⟨j, hj1, hj2⟩ := h1
                rw [hres] at hj1
                have : inst = j := (Option.some.injEq _ _).mp hj1
                rw [this] at hinst
                exact absurd hinst hj2
            refine ⟨?_, ?_⟩
            · rw [hinstX, hXid, instance_id, hpa]
            · rw [hrec.1, hcnt1]
          · have hU2 : (ps.filter (fun q => q.addr == a)).length ≤ 1 := by
              have : List.filter (fun q => q.addr == a) (p :: ps)
                  = List.filter (fun q => q.addr == a) ps := by
                simp [List.filter_cons, hpa]
              rw [this] at hU
              exact hU
            have hXa : (instX.p.addr == a) = false := by
              rw [hXp]
              simpa using hpa
            have hacc2 : ∀ j, some instX = some j → j.p.addr ≠ a := by
              intro j hj
              rw [← (Option.some.injEq _ _).mp hj, hXp]
              exact hpa
            have hrec := input_new_loop_id_count ext input data a ps
              { cfg with inputs := cfg.inputs ++ [instX] } (some instX) inst
              hU2 hacc2 hres hinst
            have hcnt0 : countP { cfg with inputs := cfg.inputs ++ [instX] } a
                = countP cfg a := by
              rw [countP_append_one, hXa]
              simp
            exact ⟨by rw [hrec.1, hcnt0], by rw [hrec.2, hcnt0]⟩
      · have hp2 : check_protocol p.name input = false := by simpa using hp
        have heq : flb_input_new_loop ext input data (p :: ps) cfg acc
            = flb_input_new_loop ext input data ps cfg acc := by
          simp [flb_input_new_loop, hp2]
        rw [heq] at hres ⊢
        have hU2 : (ps.filter (fun q => q.addr == a)).length ≤ 1 := by
          have hsub : (ps.filter (fun q => q.addr == a)).length
              ≤ (List.filter (fun q => q.addr == a) (p :: ps)).length := by
            rw [List.filter_cons]
            by_cases hpa : (p.addr == a) = true
            · simp [hpa]
            · simp [hpa]
          omega
        exact input_new_loop_id_count ext input data a ps cfg acc inst
          hU2 hacc hres hinst

/-- Any instance the loop hands back either came in through the
accumulator or was created from one of the remaining plugins, carrying
the display name `<plugin-name>.<index>` for its own plugin and id. -/
theorem input_new_loop_result_shape (ext : Externals) (input : List Byte) (data : Nat) :
    ∀ (ps : List FlbInputPlugin) (cfg : FlbConfig) (acc : Option FlbInputInstance)
      (inst : FlbInputInstance),
      (flb_input_new_loop ext input data ps cfg acc).1 = some inst →
      acc = some inst
      ∨ (inst.p ∈ ps ∧ inst.name = inst.p.name ++ [46] ++ decRepr inst.id)
  | [], _, _, _, hres => Or.inl hres
  | p :: ps, cfg, acc, inst, hres => by
      by_cases hp : check_protocol p.name input = true
      · rcases input_new_loop_cons_match ext input data p ps cfg acc hp with
          habort | ⟨instX, hXp, hXid, hXname, heq⟩
        · rw [habort] at hres
          exact absurd hres (by simp)
        · rw [heq] at hres
          rcases input_new_loop_result_shape ext input data ps
            { cfg with inputs := cfg.inputs ++ [instX] } (some instX) inst hres with
            h1 | h1
          · have hiX : inst = instX := ((Option.some.injEq _ _).mp h1).symm
            refine Or.inr ⟨?_, ?_⟩
            · rw [hiX, hXp]
              simp
            · rw [hiX, hXname, hXp, hXid]
          · exact Or.inr ⟨by simp [h1.1], h1.2⟩
      · have hp2 : check_protocol p.name input = false := by simpa using hp
        have heq : flb_input_new_loop ext input data (p :: ps) cfg acc
            = flb_input_new_loop ext input data ps cfg acc := by
          simp [flb_input_new_loop, hp2]
        rw [heq] at hres
        rcases input_new_loop_result_shape ext input data ps cfg acc inst hres with
          h1 | h1
        · exact Or.inl h1
        · exact Or.inr ⟨by simp [h1.1], h1.2⟩

/-- C6 per-call lemma at the `flb_input_new` level. -/
theorem input_new_id_count (ext : Externals) (cfg : FlbConfig) (s : List Byte)
    (data : Nat) (a : Nat) (inst : FlbInputInstance)
    (hU : (cfg.in_plugins.filter (fun q => q.addr == a)).length ≤ 1)
    (hres : (flb_input_new ext cfg (some s) data).1 = some inst)
    (ha : inst.p.addr = a) :
    inst.id = countP cfg a
    ∧ countP (flb_input_new ext cfg (some s) data).2 a = countP cfg a + 1 :=
  input_new_loop_id_count ext s data a cfg.in_plugins cfg none inst hU
    (fun _ hj => absurd hj (by simp)) hres ha

/-- The call sequence never touches the plugin list. -/
theorem run_calls_in_plugins (ext : Externals) (data : Nat) :
    ∀ (strs : List (List Byte)) (cfg : FlbConfig),
      ((run_input_new_calls ext data strs cfg).2).in_plugins = cfg.in_plugins
  | [], _ => rfl
  | s :: ss, cfg => by
      have h1 := run_calls_in_plugins ext data ss (flb_input_new ext cfg (some s) data).2
      have h2 := flb_input_new_in_plugins ext cfg (some s) data
      simpa [run_input_new_calls, h2] using h1

/-- Every instance returned along a call sequence was created from a
registered plugin and carries the formatted display name. -/
theorem run_calls_result_shape (ext : Externals) (data : Nat) :
    ∀ (strs : List (List Byte)) (cfg : FlbConfig) (inst : FlbInputInstance),
      (some inst) ∈ (run_input_new_calls ext data strs cfg).1 →
      inst.p ∈ cfg.in_plugins
      ∧ inst.name = inst.p.name ++ [46] ++ decRepr inst.id
  | [], _, _, h => absurd h (by simp [run_input_new_calls])
  | s :: ss, cfg, inst, h => by
      have hcases : (flb_input_new ext cfg (some s) data).1 = some inst
          ∨ (some inst) ∈ (run_input_new_calls ext data ss
              (flb_input_new ext cfg (some s) data).2).1 := by
        rcases List.mem_cons.mp (by simpa [run_input_new_calls] using h) with h1 | h1
        · exact Or.inl h1.symm
        · exact Or.inr h1
      rcases hcases with h1 | h1
      · rcases input_new_loop_result_shape ext s data cfg.in_plugins cfg none inst h1 with
          h2 | h2
        · exact absurd h2 (by simp)
        · exact h2
      · have h2 := run_calls_result_shape ext data ss
          (flb_input_new ext cfg (some s) data).2 inst h1
        rw [flb_input_new_in_plugins ext cfg (some s) data] at h2
        exact h2

/-- Among a plugin list with at most one entry of address `a`, two
member plugins of that address coincide. -/
theorem plugin_addr_unique {l : List FlbInputPlugin} (h : (l.filter (fun q => q.addr == a)).length ≤ 1)
    {x y : FlbInputPlugin} (hxm : x ∈ l) (hxa : x.addr = a)
    (hym : y ∈ l) (hya : y.addr = a) : x = y := by
  have hxf : x ∈ l.filter (fun q => q.addr == a) :=
    List.mem_filter.mpr ⟨hxm, by simp [hxa]⟩
  have hyf : y ∈ l.filter (fun q => q.addr == a) :=
    List.mem_filter.mpr ⟨hym, by simp [hya]⟩
  cases hf : l.filter (fun q => q.addr == a) with
  | nil =>
      rw [hf] at hxf
      exact absurd hxf (by simp)
  | cons z zs =>
      cases zs with
      | nil =>
          rw [hf] at hxf hyf
          have hx := List.mem_singleton.mp hxf
          have hy := List.mem_singleton.mp hyf
          rw [hx, hy]
      | cons w ws =>
          rw [hf] at h
          simp at h

/-- Along a sequence of calls each returning an `a`-instance, the
assigned ids run consecutively from the `a`-count of the initial
registry. -/
theorem run_ids_aux (ext : Externals) (data : Nat) (a : Nat) :
    ∀ (strs : List (List Byte)) (cfg : FlbConfig) (insts : List FlbInputInstance),
      (cfg.in_plugins.filter (fun q => q.addr == a)).length ≤ 1 →
      (run_input_new_calls ext data strs cfg).1 = insts.map some →
      (∀ i ∈ insts, i.p.addr = a) →
      insts.map (fun i => i.id) = List.range' (countP cfg a) insts.length
  | [], cfg, insts, _, hrun, _ => by
      cases insts with
      | nil => rfl
      | cons i is => simp [run_input_new_calls] at hrun
  | s :: ss, cfg, insts, hU, hrun, haddr => by
      cases insts with
      | nil => simp [run_input_new_calls] at hrun
      | cons i is =>
        have hpair : (flb_input_new ext cfg (some s) data).1 = some i
            ∧ (run_input_new_calls ext data ss
                (flb_input_new ext cfg (some s) data).2).1 = is.map some := by
          have := hrun
          simpa [run_input_new_calls] using this
        obtain ⟨hcall, hrest⟩ := hpair
        have hai : i.p.addr = a := haddr i (by simp)
        obtain ⟨hid, hcnt⟩ := input_new_id_count ext cfg s data a i hU hcall hai
        have hU2 : (((flb_input_new ext cfg (some s) data).2).in_plugins.filter
            (fun q => q.addr == a)).length ≤ 1 := by
          rw [flb_input_new_in_plugins]
          exact hU
        have ih := run_ids_aux ext data a ss (flb_input_new ext cfg (some s) data).2
          is hU2 hrest (fun j hj => haddr j (by simp [hj]))
        rw [hcnt] at ih
        simp only [List.map_cons, List.length_cons, List.range'_succ, hid, ih]

/-- C6: over any sequence of successful `flb_input_new` calls that all
resolve to the same plugin, starting from a registry holding no
instance of that plugin, the assigned instance indices are exactly
0..n-1 in creation order and the display names
`<plugin-name>.<index>` are pairwise distinct. -/
theorem instance_ids_sequential_and_names_unique (ext : Externals) (data : Nat)
    (strs : List (List Byte)) (cfg : FlbConfig) (a : Nat)
    (insts : List FlbInputInstance)
    (hU : (cfg.in_plugins.filter (fun q => q.addr == a)).length ≤ 1)
    (h0 : countP cfg a = 0)
    (hrun : (run_input_new_calls ext data strs cfg).1 = insts.map some)
    (haddr : ∀ i ∈ insts, i.p.addr = a) :
    insts.map (fun i => i.id) = List.range insts.length
    ∧ (insts.map (fun i => i.name)).Nodup := by
  have hids := run_ids_aux ext data a strs cfg insts hU hrun haddr
  rw [h0] at hids
  have hids2 : insts.map (fun i => i.id) = List.range insts.length := by
    rw [hids, List.range_eq_range']
  refine ⟨hids2, ?_⟩
  have hmem : ∀ i ∈ insts, (some i) ∈ (run_input_new_calls ext data strs cfg).1 := by
    intro i hi
    rw [hrun]
    exact List.mem_map_of_mem some hi
  have hshape : ∀ i ∈ insts, i.p ∈ cfg.in_plugins
      ∧ i.name = i.p.name ++ [46] ++ decRepr i.id :=
    fun i hi => run_calls_result_shape ext data strs cfg i (hmem i hi)
  have hidnodup : (insts.map (fun i => i.id)).Nodup := by
    rw [hids2]
    exact List.nodup_range _
  have hinj := List.inj_on_of_nodup_map hidnodup
  have hnodup : insts.Nodup := List.Nodup.of_map _ hidnodup
  apply List.Nodup.map_on _ hnodup
  intro x hx y hy hxy
  have hpx := hshape x hx
  have hpy := hshape y hy
  have hpe : x.p = y.p := plugin_addr_unique hU hpx.1 (haddr x hx) hpy.1 (haddr y hy)
  rw [hpx.2, hpy.2, hpe] at hxy
  have hide : x.id = y.id := name_format_injective y.p.name hxy
  exact hinj hx hy hide

/-- The two instances produced by two `cpu` creation calls, for the C6
witness. -/
def instsW : List FlbInputInstance :=
  [input_new_instance pluginW 0 0, input_new_instance pluginW 1 0]

/-- Witness for C6: two calls resolving to the `cpu` plugin yield the
instance indices [0, 1] and distinct display names. -/
theorem instance_ids_sequential_and_names_unique_witness :
    (cfgW.in_plugins.filter (fun q => q.addr == 1)).length ≤ 1
    ∧ countP cfgW 1 = 0
    ∧ instsW.map (fun i => i.id) = List.range instsW.length
    ∧ (instsW.map (fun i => i.name)).Nodup :=
  have h := instance_ids_sequential_and_names_unique extW 0
    [bytes "cpu", bytes "cpu"] cfgW 1 instsW (by decide) (by decide) rfl
    (by decide)
  ⟨by decide, by decide, h.1, h.2⟩
